import Mathlib

/-!
Verification of the MODIS LST composite-and-mosaic pipeline
(functions.py): a shallow embedding of the quality filter, the
monthly-composite arithmetic, the parameter enumerator, the raster
writer, and the control flow of the tile composer and mosaic builder,
together with theorems settling the specification claims.

Numpy arrays are embedded as `List Nat` (the LST/QC layers are unsigned
16-bit rasters); elementwise numpy operations become `List.map` /
`List.zipWith`.  Machine integers stay in `Nat` with an explicit
`% 65536` where the source downcasts to unsigned 16-bit.
-/

namespace ModisLst

/-! ## Definitions -/

/-! ### QualityFilter: raster_high_qc (functions.py lines 108-119)

The source computes `np.logical_or(QC == 0, QC == 4, QC == 8)`.  The
third positional argument of numpy.logical_or is the *output buffer*
(out), not a third operand, so the boolean array `QC == 8` is merely
overwritten with the elementwise result of `(QC == 0) | (QC == 4)`.
The mask is therefore true exactly on flag values 0 and 4. -/
def qcLogical (q : Nat) : Bool := q == 0 || q == 4

/-- Quality filter: `raster_high_qc LST QC` returns the filtered layer
HQ_LST (`QC_logical * LST`, i.e. the raw value where the mask holds, 0
elsewhere) and the validity mask `non_missing = HQ_LST != 0`. -/
def raster_high_qc (LST QC : List Nat) : List Nat × List Bool :=
  let QC_logical := QC.map qcLogical
  let HQ_LST := List.zipWith (fun b v => if b then v else 0) QC_logical LST
  (HQ_LST, HQ_LST.map (fun v => v != 0))

/-! ### TileComposer arithmetic: dl_month_hdf lines 221-225

Per pixel, the source divides the sum of the filtered values by the
number of granules whose filtered value is nonzero
(`sum(list_lst_high) / sum(list_non_missing)`), replaces the 0/0 NaN
by 0, and downcasts with astype to unsigned 16-bit (truncation toward
zero).  The float64 quotient of naturals this small truncates to the
exact floor, so the downcast is `Nat` division followed by
`% 65536`. -/
def composePixel (vals : List Nat) : Nat :=
  let s := vals.sum
  let c := (vals.filter (fun v => v != 0)).length
  if c = 0 then 0 else (s / c) % 65536

/-- The whole monthly composite layer: `composePixel` at every index of
the (flattened) tile raster. -/
def monthly_composite (hqs : List (List Nat)) (width : Nat) : List Nat :=
  (List.range width).map (fun i => composePixel (hqs.map (fun a => a.getD i 0)))

/-! ### ParameterEnumerator: mosaics_parameters (lines 23-41)

The call `datetime.datetime.now()` is abstracted into the two arguments
`current_year` and `current_month`; everything else follows the source:
the cross product of products × `range(2000, current_year + 1)` ×
`range(1, 13)` × {day, night}, then the four list-comprehension
filters.  Note the first filter tests the literal `row[1] == 2018`, not
the current year. -/
def product4 {α β γ δ : Type} (l1 : List α) (l2 : List β) (l3 : List γ)
    (l4 : List δ) : List (α × β × γ × δ) :=
  l1.bind (fun a => l2.bind (fun b => l3.bind (fun c =>
    l4.map (fun d => (a, b, c, d)))))

def mosaics_parameters (current_year current_month : Nat) :
    List (String × Nat × Nat × String) :=
  let prod := ["MOD11A2.006", "MYD11A2.006"]
  let year := List.range' 2000 (current_year + 1 - 2000)
  let month := List.range' 1 12
  let day_night := ["day", "night"]
  let combinations := product4 prod year month day_night
  let combinations := combinations.filter (fun row =>
    !(row.2.1 == 2018 && decide (current_month ≤ row.2.2.1)))
  let combinations := combinations.filter (fun row =>
    !(row.1 == "MOD11A2.006" && row.2.1 == 2000 && decide (row.2.2.1 < 3)))
  let combinations := combinations.filter (fun row =>
    !(row.1 == "MYD11A2.006" && decide (row.2.1 < 2002)))
  let combinations := combinations.filter (fun row =>
    !(row.1 == "MYD11A2.006" && row.2.1 == 2002 && decide (row.2.2.1 < 7)))
  combinations

/-! ### RasterWriter: save_raster (lines 75-96)

Array entries are floats that are either a number or NaN; the
`in_na_value` argument either carries a number or the string sentinel
told apart by the `in_na_value == "NA"` test.  The masked assignments
`value[np.isnan(value)] = out_na_value` and
`value[value == in_na_value] = out_na_value` mutate the array of the
caller in place; the post-call state of that array is the `array_after`
field below, and it is also exactly what `WriteArray` persists
(`band`).  `SetNoDataValue(out_na_value)` declares the no-data value of
the band.  Note `NaN == x` is false for every number `x`, so in the
numeric branch NaN entries are untouched. -/
inductive Cell where
  | nan : Cell
  | val : Int → Cell
deriving DecidableEq

inductive NAValue where
  | na : NAValue
  | num : Int → NAValue
deriving DecidableEq

structure SaveRasterResult where
  array_after : List Cell
  band : List Cell
  noDataValue : Int
deriving DecidableEq

def replaceCell (in_na_value : NAValue) (out_na_value : Int) (c : Cell) :
    Cell :=
  match in_na_value, c with
  | NAValue.na, Cell.nan => Cell.val out_na_value
  | NAValue.na, c => c
  | NAValue.num x, c =>
    if c = Cell.val x then Cell.val out_na_value else c

def save_raster (value : List Cell) (in_na_value : NAValue)
    (out_na_value : Int) : SaveRasterResult :=
  let v := value.map (replaceCell in_na_value out_na_value)
  ⟨v, v, out_na_value⟩

/-! ### Naming convention (lines 166-169, 226 and 268-269, 292)

The call `str(n).zfill(2)` zero-pads the decimal rendering on the left
to width 2. -/
def zfill (width : Nat) (s : String) : String :=
  if width ≤ s.length then s
  else String.mk (List.replicate (width - s.length) '0') ++ s

/-- Line 166: tile = "h" ++ zfill 2 tileH ++ "v" ++ zfill 2 tileV. -/
def tile_id (tileH tileV : Nat) : String :=
  "h" ++ zfill 2 (toString tileH) ++ "v" ++ zfill 2 (toString tileV)

/-- Line 226: name_geotiff = product ++ ".A" ++ year ++ month ++ "." ++
tile ++ ".tif". -/
def name_geotiff (product : String) (year month tileH tileV : Nat) : String :=
  product ++ ".A" ++ toString year ++ zfill 2 (toString month) ++ "." ++
    tile_id tileH tileV ++ ".tif"

/-- Lines 268-269: mosaic_name = product ++ ".A" ++ year ++
zfill 2 month ++ "." ++ day_night. -/
def mosaic_name (product : String) (year month : Nat) (day_night : String) :
    String :=
  product ++ ".A" ++ toString year ++ zfill 2 (toString month) ++ "." ++
    day_night

/-- Line 292: the mosaic is saved as mosaic_name ++ ".tif". -/
def mosaic_filename (product : String) (year month : Nat)
    (day_night : String) : String :=
  mosaic_name product year month day_night ++ ".tif"

/-- Specification-side rendering: the two-character zero-padded decimal
numeral of `n < 100`. -/
def twoDigits (n : Nat) : String :=
  String.mk [Char.ofNat (48 + n / 10), Char.ofNat (48 + n % 10)]

/-! ### TileComposer control flow: dl_month_hdf (lines 152-234)

The external collaborators are abstracted: `download` stands for the
`down.connect()` / `down.downloadsAllDay()` pair (it either raises or
yields the downloaded granule files), and each granule carries the
outcome of its `gdal.Open` / `ReadAsArray` decoding.  Python statement
semantics: an uncaught exception propagates to the caller immediately,
so any statement after the raising one — in particular the final
`rmtree(path_hdf, ignore_errors=True)`, which is not inside any
try/finally — does not execute. -/
structure GranuleFile where
  lst : List Nat
  qc : List Nat
deriving DecidableEq

inductive DecodeOutcome where
  | ok : GranuleFile → DecodeOutcome
  | fail : DecodeOutcome
deriving DecidableEq

/-- The per-granule loop of lines 192-214: granules are decoded in
order; the first decode failure raises out of the loop. -/
def decodeLoop : List DecodeOutcome → Except Unit (List GranuleFile)
  | [] => Except.ok []
  | DecodeOutcome.fail :: _ => Except.error ()
  | DecodeOutcome.ok g :: rest =>
    match decodeLoop rest with
    | Except.ok gs => Except.ok (g :: gs)
    | Except.error e => Except.error e

/-- Observable outcome of one `dl_month_hdf` call: whether the HDF
scratch directory was deleted, what composite file (name and layer) was
written, and whether the call returned normally. -/
structure ComposeRun where
  scratchDeleted : Bool
  written : Option (String × List Nat)
  returnedNormally : Bool
deriving DecidableEq

def dl_month_hdf (product : String) (tileH tileV year month width : Nat)
    (download : Except Unit (List DecodeOutcome)) : ComposeRun :=
  match download with
  | Except.error _ => ⟨false, none, false⟩
  | Except.ok files =>
    match decodeLoop files with
    | Except.error _ => ⟨false, none, false⟩
    | Except.ok granules =>
      let hqs := granules.map (fun g => (raster_high_qc g.lst g.qc).1)
      let monthly := monthly_composite hqs width
      ⟨true, some (name_geotiff product year month tileH tileV, monthly),
        true⟩

/-- Python-level success of one granule decode. -/
def granOk : DecodeOutcome → Bool
  | DecodeOutcome.ok _ => true
  | DecodeOutcome.fail => false

/-- Every granule was fetched and decoded without an exception. -/
def downloadAllOk : Except Unit (List DecodeOutcome) → Bool
  | Except.error _ => false
  | Except.ok files => files.all granOk

/-! ### MosaicBuilder: monthly_mosaic_lst (lines 265-297)

Each worker of the joblib threading pool runs `dl_month_hdf` for one
tile and writes one uniquely named GeoTIFF into the shared scratch
directory; the workers share no mutable state beyond that directory.
The concurrency level and the completion order therefore only affect
the order in which the tile composites are produced and subsequently
listed by `glob`, i.e. the order of the tile list handed to
`gdal.BuildVRT`.  A tile composite is embedded as its set of (global
pixel coordinate, value) cells; the virtual mosaic reads each output
pixel from the tile covering it (0 — the declared no-data value —
where no tile does). -/
structure TileRaster where
  cells : List ((Nat × Nat) × Nat)
deriving DecidableEq

/-- Whether tile `t` has a cell at global coordinate `p`. -/
def coversPixel (t : TileRaster) (p : Nat × Nat) : Bool :=
  t.cells.any (fun c => c.1 == p)

/-- The value tile `t` holds at `p` (0 outside its extent). -/
def tileValueAt (t : TileRaster) (p : Nat × Nat) : Nat :=
  match t.cells.find? (fun c => c.1 == p) with
  | some c => c.2
  | none => 0

/-- One mosaic pixel: the value of the first listed tile covering `p`,
or the no-data value 0 when no tile does. -/
def mosaicAt (tiles : List TileRaster) (p : Nat × Nat) : Nat :=
  match tiles.find? (fun t => coversPixel t p) with
  | some t => tileValueAt t p
  | none => 0

/-- The mosaic raster built over the output coordinate list `coords`
from the tile composites `tiles`, listed in the order the workers
produced them. -/
def monthly_mosaic_lst (tiles : List TileRaster) (coords : List (Nat × Nat)) :
    List Nat :=
  coords.map (mosaicAt tiles)

/-- Tiles `t1` and `t2` occupy disjoint spatial extents. -/
def disjointTiles (t1 t2 : TileRaster) : Bool :=
  t1.cells.all (fun c => !(coversPixel t2 c.1))

/-- All listed tiles have pairwise disjoint extents. -/
def DisjointExtents (tiles : List TileRaster) : Prop :=
  tiles.Pairwise (fun t1 t2 => disjointTiles t1 t2 = true)

/-! ## Supporting lemmas -/

theorem filter_ne_zero_sum (vals : List Nat) :
    (vals.filter (fun v => v != 0)).sum = vals.sum := by
  induction vals with
  | nil => rfl
  | cons v vs ih =>
    by_cases h : v = 0
    · subst h; simpa using ih
    · simp [List.filter_cons, h, ih]

theorem mem_product4 {α β γ δ : Type} {l1 : List α} {l2 : List β}
    {l3 : List γ} {l4 : List δ} {x : α × β × γ × δ}
    (h : x ∈ product4 l1 l2 l3 l4) :
    x.1 ∈ l1 ∧ x.2.1 ∈ l2 ∧ x.2.2.1 ∈ l3 ∧ x.2.2.2 ∈ l4 := by
  simp only [product4, List.mem_bind, List.mem_map] at h
  obtain ⟨a, ha, b, hb, c, hc, d, hd, rfl⟩ := h
  exact ⟨ha, hb, hc, hd⟩

/-- Pointwise behaviour shared by the band written to disk and the
array of the caller after the call (the masked assignment mutates in
place, and the mutated array is what `WriteArray` receives). -/
theorem save_raster_get? (value : List Cell) (ina : NAValue) (out : Int)
    (i : Nat) (c : Cell) (hc : value.get? i = some c) :
    (save_raster value ina out).array_after.get? i =
      some (replaceCell ina out c) ∧
    (save_raster value ina out).band.get? i =
      some (replaceCell ina out c) := by
  have h : (value.map (replaceCell ina out)).get? i =
      some (replaceCell ina out c) := by
    rw [List.get?_map, hc]; rfl
  exact ⟨h, h⟩

theorem replaceCell_num_eq (x out : Int) :
    replaceCell (NAValue.num x) out (Cell.val x) = Cell.val out := by
  simp [replaceCell]

theorem replaceCell_num_ne (x out : Int) (c : Cell) (h : c ≠ Cell.val x) :
    replaceCell (NAValue.num x) out c = c := by
  simp [replaceCell, h]

theorem replaceCell_na (out : Int) (c : Cell) :
    replaceCell NAValue.na out c =
      (if c = Cell.nan then Cell.val out else c) := by
  cases c <;> simp [replaceCell]

theorem zfill_toString_eq_twoDigits (n : Nat) (h : n < 100) :
    (zfill 2 (toString n)).length = 2 ∧
      zfill 2 (toString n) = twoDigits n := by
  revert h
  revert n
  decide

theorem dot_h_append (s : String) : "." ++ ("h" ++ s) = ".h" ++ s := by
  rw [← String.append_assoc]
  have h : ("." : String) ++ "h" = ".h" := by decide
  rw [h]

theorem decodeLoop_cases (files : List DecodeOutcome) :
    (files.all granOk = true → ∃ gs, decodeLoop files = Except.ok gs) ∧
    (files.all granOk = false → decodeLoop files = Except.error ()) := by
  induction files with
  | nil =>
    constructor
    · intro _; exact ⟨[], rfl⟩
    · intro h; simp at h
  | cons f rest ih =>
    cases f with
    | fail =>
      constructor
      · intro h; simp [List.all_cons, granOk] at h
      · intro _; rfl
    | ok g =>
      constructor
      · intro h
        rw [List.all_cons] at h
        simp only [granOk, Bool.true_and] at h
        obtain ⟨gs, hd⟩ := ih.1 h
        exact ⟨g :: gs, by simp [decodeLoop, hd]⟩
      · intro h
        rw [List.all_cons] at h
        simp only [granOk, Bool.true_and] at h
        have hd := ih.2 h
        simp [decodeLoop, hd]

theorem disjointTiles_iff (t1 t2 : TileRaster) :
    disjointTiles t1 t2 = true ↔
      ∀ p, coversPixel t1 p = true → coversPixel t2 p = false := by
  constructor
  · intro h p hp
    rw [coversPixel, List.any_eq_true] at hp
    obtain ⟨c, hc, hcp⟩ := hp
    rw [disjointTiles, List.all_eq_true] at h
    have := h c hc
    simp only [Bool.not_eq_true'] at this
    rwa [(by simpa using hcp : c.1 = p)] at this
  · intro h
    rw [disjointTiles, List.all_eq_true]
    intro c hc
    have hcov : coversPixel t1 c.1 = true := by
      rw [coversPixel, List.any_eq_true]
      exact ⟨c, hc, by simp⟩
    simp [h c.1 hcov]

theorem disjointTiles_symm (t1 t2 : TileRaster)
    (h : disjointTiles t1 t2 = true) : disjointTiles t2 t1 = true := by
  rw [disjointTiles_iff] at h ⊢
  intro p hp
  by_contra hne
  have h1 : coversPixel t1 p = true := by
    cases hcov : coversPixel t1 p with
    | true => rfl
    | false => exact absurd hcov hne
  have := h p h1
  rw [this] at hp
  exact Bool.false_ne_true hp

/-- Order independence of `List.find?` when at most one element (up to
equality) satisfies the predicate. -/
theorem find?_eq_of_perm_of_unique {α : Type} (pred : α → Bool)
    (l l' : List α) (hperm : l.Perm l')
    (huniq : ∀ a, a ∈ l → ∀ b, b ∈ l → pred a = true → pred b = true →
      a = b) :
    l.find? pred = l'.find? pred := by
  cases hfl : l.find? pred with
  | none =>
    rw [List.find?_eq_none] at hfl
    cases hfl' : l'.find? pred with
    | none => rfl
    | some b =>
      have hb := List.find?_some hfl'
      have hbmem := hperm.mem_iff.mpr (List.mem_of_find?_eq_some hfl')
      exact absurd hb (by simpa using hfl b hbmem)
  | some a =>
    have ha := List.find?_some hfl
    have hamem := List.mem_of_find?_eq_some hfl
    cases hfl' : l'.find? pred with
    | none =>
      rw [List.find?_eq_none] at hfl'
      exact absurd ha (by simpa using hfl' a (hperm.mem_iff.mp hamem))
    | some b =>
      have hb := List.find?_some hfl'
      have hbmem := hperm.mem_iff.mpr (List.mem_of_find?_eq_some hfl')
      rw [huniq a hamem b hbmem ha hb]

/-! ## Claim theorems -/

/-- C1: the spec (and the docstring of the function itself) say a pixel
is accepted iff its quality flag lies in {0, 4, 8}.  The code
disagrees: because the third argument of numpy.logical_or is an output
buffer, flag 8 is rejected — at a pixel with raw value 100 and flag 8
the filtered value is 0 and the validity mask is false. -/
theorem raster_high_qc_rejects_flag8 :
    raster_high_qc [100] [8] = ([0], [false]) := by decide

/-- C4: the validity mask is true at a pixel iff the filtered value
there is nonzero; in particular a pixel that passes the quality test
but has raw value 0 (here LST = 0, QC = 0) is marked invalid. -/
theorem validity_iff_filtered_nonzero :
    (∀ (LST QC : List Nat) (i : Nat) (b : Bool) (v : Nat),
        (raster_high_qc LST QC).2.get? i = some b →
        (raster_high_qc LST QC).1.get? i = some v →
        (b = true ↔ v ≠ 0)) ∧
    raster_high_qc [0] [0] = ([0], [false]) := by
  refine ⟨?_, by decide⟩
  intro LST QC i b v hb hv
  simp only [raster_high_qc] at hb hv
  rw [List.get?_map, hv, Option.map_some'] at hb
  injection hb with hb
  subst hb
  simp

/-- Witness for C4 at LST = [5], QC = [0], pixel 0. -/
theorem validity_iff_filtered_nonzero_witness : (true = true ↔ (5 : Nat) ≠ 0) :=
  validity_iff_filtered_nonzero.1 [5] [0] 0 true 5 (by decide) (by decide)

/-- C3: per-pixel monthly composite.  `vals` is the list of filtered
values of the granules of the month at one pixel (a granule is valid
there iff its filtered value is nonzero).  If every granule is invalid
the composite is 0 (the source turns the 0/0 NaN into 0); if exactly
one is valid with value `V < 2^16` the composite is `V`; if exactly two
are valid with values `V1, V2 < 2^16` the composite is `(V1 + V2) / 2`
rounded by the downcast policy of the source (astype truncation, i.e.
floor). -/
theorem composePixel_cases (vals : List Nat) (_hne : vals ≠ []) :
    ((∀ v ∈ vals, v = 0) → composePixel vals = 0) ∧
    (∀ V : Nat, V < 65536 → vals.filter (fun v => v != 0) = [V] →
      composePixel vals = V) ∧
    (∀ V1 V2 : Nat, V1 < 65536 → V2 < 65536 →
      vals.filter (fun v => v != 0) = [V1, V2] →
      composePixel vals = (V1 + V2) / 2) := by
  refine ⟨?_, ?_, ?_⟩
  · intro hall
    have hfil : vals.filter (fun v => v != 0) = [] := by
      rw [List.filter_eq_nil]
      intro a ha
      simp [hall a ha]
    simp [composePixel, hfil]
  · intro V hV hfil
    have hsum : vals.sum = V := by
      rw [← filter_ne_zero_sum, hfil]; simp
    simp [composePixel, hfil, hsum, Nat.mod_eq_of_lt hV]
  · intro V1 V2 hV1 hV2 hfil
    have hsum : vals.sum = V1 + V2 := by
      rw [← filter_ne_zero_sum, hfil]; simp
    have hlt : (V1 + V2) / 2 < 65536 := by omega
    simp [composePixel, hfil, hsum, Nat.mod_eq_of_lt hlt]

/-- Witness for C3: one valid granule out of three gives its value, two
valid granules average with truncation, all-invalid gives 0. -/
theorem composePixel_cases_witness :
    composePixel [0, 0] = 0 ∧ composePixel [0, 7, 0] = 7 ∧
      composePixel [3, 5] = 4 :=
  ⟨(composePixel_cases [0, 0] (by decide)).1 (by decide),
   (composePixel_cases [0, 7, 0] (by decide)).2.1 7 (by decide) (by decide),
   (composePixel_cases [3, 5] (by decide)).2.2 3 5 (by decide) (by decide)
     (by decide)⟩

/-- C6: no returned combination predates the start of its product: none
with the first product earlier than (2000, 3) and none with the second
earlier than (2002, 7). -/
theorem mosaics_parameters_start_dates (cy cm : Nat)
    (row : String × Nat × Nat × String) (h : row ∈ mosaics_parameters cy cm) :
    (row.1 = "MOD11A2.006" →
      ¬(row.2.1 < 2000 ∨ (row.2.1 = 2000 ∧ row.2.2.1 < 3))) ∧
    (row.1 = "MYD11A2.006" →
      ¬(row.2.1 < 2002 ∨ (row.2.1 = 2002 ∧ row.2.2.1 < 7))) := by
  simp only [mosaics_parameters, List.mem_filter] at h
  obtain ⟨⟨⟨⟨hmem, _⟩, h2⟩, h3⟩, h4⟩ := h
  have hyear : 2000 ≤ row.2.1 := by
    have := (mem_product4 hmem).2.1
    simp only [List.mem_range'_1] at this
    exact this.1
  constructor
  · rintro hprod (hlt | ⟨hy, hm⟩)
    · omega
    · rw [hprod, hy] at h2
      simp at h2
      omega
  · rintro hprod (hlt | ⟨hy, hm⟩)
    · rw [hprod] at h3
      simp at h3
      omega
    · rw [hprod, hy] at h4
      simp at h4
      omega

/-- Witness for C6 at current date (2000, 5): the combination
(MOD11A2.006, 2000, 6, day) is returned and respects both start
dates. -/
theorem mosaics_parameters_start_dates_witness :
    (¬((2000 : Nat) < 2000 ∨ ((2000 : Nat) = 2000 ∧ (6 : Nat) < 3))) ∧
    ("MOD11A2.006" = "MYD11A2.006" →
      ¬((2000 : Nat) < 2002 ∨ ((2000 : Nat) = 2002 ∧ (6 : Nat) < 7))) :=
  ⟨(mosaics_parameters_start_dates 2000 5 ("MOD11A2.006", 2000, 6, "day")
      (by decide)).1 rfl,
   (mosaics_parameters_start_dates 2000 5 ("MOD11A2.006", 2000, 6, "day")
      (by decide)).2⟩

set_option maxRecDepth 20000 in
/-- C2: the claim (and the docstring of the function itself, which says
the enumeration stops one month before the current month) fails on the
code: the current-month cutoff is hardcoded to the literal year 2018,
so when invoked at current date October 2026 the function still returns
the combination (MOD11A2.006, 2026, 12, day), which is after the
current month of the current year. -/
theorem mosaics_parameters_returns_future_month :
    ("MOD11A2.006", 2026, 12, "day") ∈ mosaics_parameters 2026 10 := by
  decide

/-- C8: before persisting, `save_raster` replaces every entry equal to
the source no-data value (resp. every NaN entry when the source marks
no-data as NaN) with the destination no-data value, leaves the other
entries unchanged, and declares the destination no-data value on the
written band. -/
theorem save_raster_nodata_substitution (value : List Cell) (x out : Int)
    (i : Nat) (c : Cell) (hc : value.get? i = some c) :
    (save_raster value (NAValue.num x) out).noDataValue = out ∧
    (c = Cell.val x →
      (save_raster value (NAValue.num x) out).band.get? i =
        some (Cell.val out)) ∧
    (c ≠ Cell.val x →
      (save_raster value (NAValue.num x) out).band.get? i = some c) ∧
    (save_raster value NAValue.na out).noDataValue = out ∧
    (c = Cell.nan →
      (save_raster value NAValue.na out).band.get? i =
        some (Cell.val out)) ∧
    (c ≠ Cell.nan →
      (save_raster value NAValue.na out).band.get? i = some c) := by
  have hnum := (save_raster_get? value (NAValue.num x) out i c hc).2
  have hna := (save_raster_get? value NAValue.na out i c hc).2
  refine ⟨rfl, ?_, ?_, rfl, ?_, ?_⟩
  · intro h; subst h; rw [hnum, replaceCell_num_eq]
  · intro h; rw [hnum, replaceCell_num_ne x out c h]
  · intro h; subst h; rw [hna, replaceCell_na]; simp
  · intro h; rw [hna, replaceCell_na]; simp [h]

/-- Witness for C8 on the array [5, NaN] with source no-data 5 and
destination no-data 0, pixel 0. -/
theorem save_raster_nodata_substitution_witness :
    (save_raster [Cell.val 5, Cell.nan] (NAValue.num 5) 0).noDataValue = 0 ∧
    (save_raster [Cell.val 5, Cell.nan] (NAValue.num 5) 0).band.get? 0 =
      some (Cell.val 0) :=
  ⟨(save_raster_nodata_substitution [Cell.val 5, Cell.nan] 5 0 0
      (Cell.val 5) (by decide)).1,
   (save_raster_nodata_substitution [Cell.val 5, Cell.nan] 5 0 0
      (Cell.val 5) (by decide)).2.1 rfl⟩

/-- C10: `save_raster` mutates its array argument in place: after the
call the array of the caller holds the destination no-data value
wherever it matched the source no-data value (resp. was NaN), every
other entry is unchanged, and on at least one input the post-call array
differs from the pre-call array (the function is not side-effect-free
on its array argument). -/
theorem save_raster_mutates_argument :
    (∀ (value : List Cell) (x out : Int) (i : Nat) (c : Cell),
        value.get? i = some c →
        ((c = Cell.val x →
            (save_raster value (NAValue.num x) out).array_after.get? i =
              some (Cell.val out)) ∧
         (c ≠ Cell.val x →
            (save_raster value (NAValue.num x) out).array_after.get? i =
              some c) ∧
         (c = Cell.nan →
            (save_raster value NAValue.na out).array_after.get? i =
              some (Cell.val out)) ∧
         (c ≠ Cell.nan →
            (save_raster value NAValue.na out).array_after.get? i =
              some c))) ∧
    (save_raster [Cell.val 5] (NAValue.num 5) 0).array_after ≠
      [Cell.val 5] := by
  constructor
  · intro value x out i c hc
    have hnum := (save_raster_get? value (NAValue.num x) out i c hc).1
    have hna := (save_raster_get? value NAValue.na out i c hc).1
    refine ⟨?_, ?_, ?_, ?_⟩
    · intro h; subst h; rw [hnum, replaceCell_num_eq]
    · intro h; rw [hnum, replaceCell_num_ne x out c h]
    · intro h; subst h; rw [hna, replaceCell_na]; simp
    · intro h; rw [hna, replaceCell_na]; simp [h]
  · decide

/-- Witness for C10: entry 0 of the caller array [7] is untouched when
it differs from the source no-data value 5. -/
theorem save_raster_mutates_argument_witness :
    (save_raster [Cell.val 7] (NAValue.num 5) 0).array_after.get? 0 =
      some (Cell.val 7) :=
  ((save_raster_mutates_argument.1 [Cell.val 7] 5 0 0 (Cell.val 7)
      (by decide)).2.1) (by decide)

/-- C9: for month ≤ 12, tileH ≤ 35 and tileV ≤ 17 (the domains stated
in the source docstrings), the tile composite written by `dl_month_hdf`
is named product.Ayyyymm.hHHvVV.tif with the month and both tile
indices zero-padded to two decimal digits, and the final mosaic written
by `monthly_mosaic_lst` is named product.Ayyyymm.dayOrNight.tif. -/
theorem naming_convention (product day_night : String)
    (year month tileH tileV : Nat) (hm : month ≤ 12) (hh : tileH ≤ 35)
    (hv : tileV ≤ 17) :
    name_geotiff product year month tileH tileV =
      product ++ ".A" ++ toString year ++ twoDigits month ++ ".h" ++
        twoDigits tileH ++ "v" ++ twoDigits tileV ++ ".tif" ∧
    mosaic_filename product year month day_night =
      product ++ ".A" ++ toString year ++ twoDigits month ++ "." ++
        day_night ++ ".tif" := by
  have h1 := (zfill_toString_eq_twoDigits month (by omega)).2
  have h2 := (zfill_toString_eq_twoDigits tileH (by omega)).2
  have h3 := (zfill_toString_eq_twoDigits tileV (by omega)).2
  constructor
  · rw [name_geotiff, tile_id, h1, h2, h3]
    simp only [String.append_assoc, dot_h_append]
  · rw [mosaic_filename, mosaic_name, h1]

/-- Witness for C9 at product MOD11A2.006, June 2005, tile h22v03,
day. -/
theorem naming_convention_witness :
    name_geotiff "MOD11A2.006" 2005 6 22 3 =
      "MOD11A2.006" ++ ".A" ++ toString 2005 ++ twoDigits 6 ++ ".h" ++
        twoDigits 22 ++ "v" ++ twoDigits 3 ++ ".tif" ∧
    mosaic_filename "MOD11A2.006" 2005 6 "day" =
      "MOD11A2.006" ++ ".A" ++ toString 2005 ++ twoDigits 6 ++ "." ++
        "day" ++ ".tif" :=
  naming_convention "MOD11A2.006" "day" 2005 6 22 3 (by decide) (by decide)
    (by decide)

/-- C5 counterexample: the claim says the HDF scratch directory is
deleted on every execution path, but when the download raises
(`download = error`) `dl_month_hdf` propagates the exception without
reaching the `rmtree` call, so the scratch directory survives. -/
theorem dl_month_hdf_no_cleanup_on_fetch_failure :
    (dl_month_hdf "MOD11A2.006" 22 3 2005 6 4
        (Except.error (ε := Unit) ())).scratchDeleted = false := by
  decide

/-- C5 amended: `dl_month_hdf` deletes the HDF scratch directory iff
the download and every granule decode succeed; on any fetch or decode
failure the exception propagates without the deletion running. -/
theorem dl_month_hdf_cleanup_iff_success (product : String)
    (tileH tileV year month width : Nat)
    (download : Except Unit (List DecodeOutcome)) :
    (dl_month_hdf product tileH tileV year month width
        download).scratchDeleted = downloadAllOk download := by
  cases download with
  | error e => rfl
  | ok files =>
    cases hall : files.all granOk with
    | true =>
      obtain ⟨gs, hd⟩ := (decodeLoop_cases files).1 hall
      simp [dl_month_hdf, hd, downloadAllOk, hall]
    | false =>
      have hd := (decodeLoop_cases files).2 hall
      simp [dl_month_hdf, hd, downloadAllOk, hall]

/-- C7: with pairwise disjoint tile extents, the mosaic raster is the
same whatever order the tile composites were produced and listed in —
in particular a sequential run (concurrency 1) and any interleaving a
3-worker pool can produce yield identical output rasters. -/
theorem monthly_mosaic_lst_order_independent (tiles tiles' : List TileRaster)
    (coords : List (Nat × Nat)) (hperm : tiles.Perm tiles')
    (hdisj : DisjointExtents tiles) :
    monthly_mosaic_lst tiles' coords = monthly_mosaic_lst tiles coords := by
  have huniq : ∀ p (a : TileRaster), a ∈ tiles → ∀ b, b ∈ tiles →
      coversPixel a p = true → coversPixel b p = true → a = b := by
    intro p a hamem b hbmem hcova hcovb
    by_contra hne
    have hpair := List.Pairwise.forall
      (fun t1 t2 h => disjointTiles_symm t1 t2 h) hdisj hamem hbmem hne
    rw [disjointTiles_iff] at hpair
    have := hpair p hcova
    rw [this] at hcovb
    exact Bool.false_ne_true hcovb
  unfold monthly_mosaic_lst
  apply List.map_congr_left
  intro p _
  unfold mosaicAt
  rw [find?_eq_of_perm_of_unique (fun t => coversPixel t p) tiles tiles'
    hperm (huniq p)]

/-- Witness for C7: three disjoint 2×2 tiles (the end-to-end scenario
of the spec) merged after a permuted completion order give the same
mosaic as the sequential order. -/
theorem monthly_mosaic_lst_order_independent_witness :
    monthly_mosaic_lst
        [TileRaster.mk [((0, 4), 9), ((0, 5), 10), ((1, 4), 11), ((1, 5), 12)],
         TileRaster.mk [((0, 0), 1), ((0, 1), 2), ((1, 0), 3), ((1, 1), 4)],
         TileRaster.mk [((0, 2), 5), ((0, 3), 6), ((1, 2), 7), ((1, 3), 8)]]
        [(0, 0), (0, 1), (0, 2), (0, 3), (0, 4), (0, 5),
         (1, 0), (1, 1), (1, 2), (1, 3), (1, 4), (1, 5)] =
      monthly_mosaic_lst
        [TileRaster.mk [((0, 0), 1), ((0, 1), 2), ((1, 0), 3), ((1, 1), 4)],
         TileRaster.mk [((0, 2), 5), ((0, 3), 6), ((1, 2), 7), ((1, 3), 8)],
         TileRaster.mk [((0, 4), 9), ((0, 5), 10), ((1, 4), 11), ((1, 5), 12)]]
        [(0, 0), (0, 1), (0, 2), (0, 3), (0, 4), (0, 5),
         (1, 0), (1, 1), (1, 2), (1, 3), (1, 4), (1, 5)] :=
  monthly_mosaic_lst_order_independent
    [TileRaster.mk [((0, 0), 1), ((0, 1), 2), ((1, 0), 3), ((1, 1), 4)],
     TileRaster.mk [((0, 2), 5), ((0, 3), 6), ((1, 2), 7), ((1, 3), 8)],
     TileRaster.mk [((0, 4), 9), ((0, 5), 10), ((1, 4), 11), ((1, 5), 12)]]
    [TileRaster.mk [((0, 4), 9), ((0, 5), 10), ((1, 4), 11), ((1, 5), 12)],
     TileRaster.mk [((0, 0), 1), ((0, 1), 2), ((1, 0), 3), ((1, 1), 4)],
     TileRaster.mk [((0, 2), 5), ((0, 3), 6), ((1, 2), 7), ((1, 3), 8)]]
    [(0, 0), (0, 1), (0, 2), (0, 3), (0, 4), (0, 5),
     (1, 0), (1, 1), (1, 2), (1, 3), (1, 4), (1, 5)]
    (by decide) (by unfold DisjointExtents; decide)

end ModisLst
